import Mathlib

/-!
Verification of the Tadu crawler server (`server.js`).

The file gives a shallow embedding of the crawler core: the resilient
fetcher `safeGet`, the listing extractor `getBookIds`, the book-metadata
extractor `crawlBookInfo` (with its cover-image fallback chain), the
chapter title/content fetchers, the chapter pipeline
`crawlFirstNChapters`, and the `/crawl` request handler.

Modelling conventions:
* The network is an oracle: for each URL, a function `Nat → Option δ`
  giving the outcome of the k-th underlying HTTP request issued to that
  URL (`none` = transport error / timeout, `some doc` = a successful
  response already parsed into an abstract document value).  Each fetch
  function threads the request counter explicitly so that the number of
  underlying requests is observable.
* Parsed HTML documents (cheerio) are abstracted to records holding
  exactly the pieces the extractors query: the listing page is the list
  of `href` values of its `a.bookImg[href]` anchors, a book page holds
  the queried attributes/texts, a chapter page holds the texts of its
  `h4` elements in document order, and the content API response is the
  JSON payload shape `{status, data: {content}}`.
* Timing (the fixed retry delay, the 15s per-request timeout) and the
  `p-limit` concurrency caps do not affect computed values and are not
  modelled beyond their constants; `Promise.all` result assembly is
  modelled explicitly (`collectByIndex`) to state order-independence.
* String scanning helpers (`isPrefixList`, trims, the `/book/(\d+)/`
  pattern) work over `List Char`, mirroring the JavaScript string
  operations used by the source.
-/

/-! ## Configuration constants (server.js lines 10-15) -/

def BASE_STORE_URL : String := "https://www.tadu.com/store/98-a-0-15-a-20-p-\x7bpage\x7d-909"

def MAX_BOOK_WORKERS : Nat := 10

def MAX_CHAPTER_WORKERS : Nat := 5

def RETRY_TIMES : Nat := 3

def RETRY_SLEEP_MS : Nat := 200

/-! ## Character-list string helpers -/

/-- Is `pat` a prefix of `s` (char-for-char)? -/
def isPrefixList : List Char → List Char → Bool
  | [], _ => true
  | _ :: _, [] => false
  | a :: as, b :: bs => a == b && isPrefixList as bs

/-- Does `s` contain `pat` as a contiguous substring?  Models JavaScript
`String.prototype.includes`. -/
def hasSubList (pat : List Char) : List Char → Bool
  | [] => pat.isEmpty
  | c :: rest => isPrefixList pat (c :: rest) || hasSubList pat rest

/-- `String.prototype.includes` on Lean strings. -/
def hasSubStr (s pat : String) : Bool := hasSubList pat.data s.data

/-- Does `s` start with `pat`?  Models `String.prototype.startsWith`. -/
def jsStartsWith (s pat : String) : Bool := isPrefixList pat.data s.data

/-- Does `s` end with `pat`?  Models `String.prototype.endsWith`. -/
def jsEndsWith (s pat : String) : Bool := isPrefixList pat.data.reverse s.data.reverse

/-- JavaScript `String.prototype.trim`: strip leading and trailing
whitespace. -/
def jsTrim (s : String) : String :=
  String.mk (((s.data.dropWhile Char.isWhitespace).reverse.dropWhile Char.isWhitespace).reverse)

/-- Replace the first occurrence of `pat` by `repl`; models
`String.prototype.replace` with a string pattern (as used for the
`\x7bpage\x7d` placeholder of the listing URL template). -/
def replaceFirstList (pat repl : List Char) : List Char → List Char
  | [] => []
  | c :: cs =>
    if isPrefixList pat (c :: cs) then repl ++ (c :: cs).drop pat.length
    else c :: replaceFirstList pat repl cs

/-- `String.prototype.replace` (first occurrence, string pattern). -/
def replaceFirst (s pat repl : String) : String :=
  String.mk (replaceFirstList pat.data repl.data s.data)

/-! ## JavaScript numeric parsing (`parseInt`) and coercions -/

/-- Value of a run of decimal digits. -/
def digitsVal (cs : List Char) : Nat :=
  cs.foldl (fun a c => 10 * a + (c.toNat - 48)) 0

/-- Parse a leading run of decimal digits, ignoring any trailing
garbage; `none` when no leading digit exists. -/
def parseDecDigits (cs : List Char) : Option Nat :=
  let ds := cs.takeWhile Char.isDigit
  if ds.isEmpty then none else some (digitsVal ds)

/-- Hexadecimal digit test for `parseInt`'s `0x` form. -/
def isHexDigitChar (c : Char) : Bool :=
  c.isDigit || ('a' ≤ c && c ≤ 'f') || ('A' ≤ c && c ≤ 'F')

/-- Value of one hexadecimal digit. -/
def hexDigitVal (c : Char) : Nat :=
  if c.isDigit then c.toNat - 48
  else if 'a' ≤ c then c.toNat - 87
  else c.toNat - 55

/-- Parse a leading run of hexadecimal digits. -/
def parseHexDigits (cs : List Char) : Option Nat :=
  let ds := cs.takeWhile isHexDigitChar
  if ds.isEmpty then none else some (ds.foldl (fun a c => 16 * a + hexDigitVal c) 0)

/-- Magnitude part of `parseInt` with unspecified radix: a `0x`/`0X`
head selects radix 16, otherwise radix 10. -/
def parseUnsigned : List Char → Option Nat
  | '0' :: 'x' :: rest => parseHexDigits rest
  | '0' :: 'X' :: rest => parseHexDigits rest
  | cs => parseDecDigits cs

/-- JavaScript `parseInt(s)` (radix unspecified): skip leading
whitespace, optional sign, then digits; `none` models `NaN`. -/
def parseIntJS (s : String) : Option Int :=
  let cs := s.data.dropWhile Char.isWhitespace
  match cs with
  | '-' :: rest => (parseUnsigned rest).map (fun n => -(n : Int))
  | '+' :: rest => (parseUnsigned rest).map (fun n => (n : Int))
  | _ => (parseUnsigned cs).map (fun n => (n : Int))

/-- JavaScript `q || d` on an optional query parameter: an absent or
empty-string parameter falls back to the default. -/
def jsOrDefault (q : Option String) (d : String) : String :=
  match q with
  | some s => if s = "" then d else s
  | none => d

/-- How `Array.from (\x7b length: v \x7d)` coerces the requested length:
`NaN` (here `none`) and negative values give 0. -/
def toLength (v : Option Int) : Nat :=
  match v with
  | none => 0
  | some z => z.toNat

/-- String interpolation of a JavaScript number: `NaN` prints as
`"NaN"`. -/
def jsNumToString (v : Option Int) : String :=
  match v with
  | none => "NaN"
  | some z => toString z

/-! ## Abstract parsed documents -/

/-- One `img` element of a book page: its optional `data-src` and `src`
attributes (an attribute may be present with an empty value). -/
structure ImgEl where
  dataSrc : Option String
  src : Option String
deriving DecidableEq

/-- A parsed book detail page, holding exactly the pieces
`crawlBookInfo` queries. -/
structure BookDoc where
  /-- `data-name` attribute of the first `a.bkNm[data-name]` element. -/
  bkNm : Option String
  /-- text of `span.author` (empty when the element is absent). -/
  authorText : String
  /-- the page's `img` elements in document order. -/
  imgs : List ImgEl
  /-- `content` attribute of `meta[property="og:image"]` (`none` when
  the tag or attribute is absent; `some ""` when present but empty). -/
  ogImage : Option String
  /-- text of `p.intro`. -/
  introText : String
  /-- texts of the `div.sortList a` elements in document order. -/
  sortListTexts : List String
deriving DecidableEq

/-- A parsed chapter page: the texts of its `h4` elements in document
order. -/
structure ChapterDoc where
  h4Texts : List String
deriving DecidableEq

/-- The JSON payload of the chapter-content API:
`\x7bstatus, data: \x7bcontent\x7d\x7d`.  `content` is `none` when `data` or
`data.content` is missing. -/
structure ContentPayload where
  status : Int
  content : Option String
deriving DecidableEq

/-! ## Resilient fetcher (`safeGet`, server.js lines 18-29) -/

/-- Sequential attempts of `safeGet` starting at request counter `k`
with `r` attempts remaining: returns the first successful response (if
any) together with the updated request counter, so the number of
underlying requests issued is `(safeGetFrom net r k).2 - k`. -/
def safeGetFrom (net : Nat → Option δ) : Nat → Nat → Option δ × Nat
  | 0, k => (none, k)
  | r + 1, k =>
    match net k with
    | some v => (some v, k + 1)
    | none => safeGetFrom net r (k + 1)

/-- The error message thrown by `safeGet` on exhaustion. -/
def fetchErrMsg (url : String) (retries : Nat) : String :=
  "Không thể truy cập " ++ url ++ " sau " ++ toString retries ++ " lần"

/-- `safeGet(url, retries)`: up to `retries` sequential requests,
returning the first successful response or throwing (here: `Except.error`
with the source's message) after exhaustion.  The fixed inter-attempt
delay only affects timing and is not modelled. -/
def safeGet (net : Nat → Option δ) (url : String) (retries : Nat) : Except String δ :=
  match (safeGetFrom net retries 0).1 with
  | some v => .ok v
  | none => .error (fetchErrMsg url retries)

/-- Number of underlying requests a `safeGet` call issues. -/
def safeGetRequests (net : Nat → Option δ) (retries : Nat) : Nat :=
  (safeGetFrom net retries 0).2

/-! ## Listing extractor (`getBookIds`, server.js lines 32-46) -/

/-- Try the regex `\/book\/(\d+)\//` at the start of `l`: literal
`"/book/"`, then a maximal nonempty digit run, then `"/"`.  (With a
greedy `\d+` followed by a literal `/`, no backtracking can succeed, so
the maximal run is the only candidate.) -/
def bookIdAt (l : List Char) : Option (List Char) :=
  if isPrefixList "/book/".data l then
    let after := l.drop 6
    let ds := after.takeWhile Char.isDigit
    if ds.isEmpty then none
    else match after.drop ds.length with
      | '/' :: _ => some ds
      | _ => none
  else none

/-- First match of `\/book\/(\d+)\//` anywhere in the list, scanning
left to right as the regex engine does. -/
def scanBookId : List Char → Option (List Char)
  | [] => none
  | c :: rest =>
    match bookIdAt (c :: rest) with
    | some ds => some ds
    | none => scanBookId rest

/-- `href.match(/\/book\/(\d+)\//)` reduced to its capture group. -/
def extractBookId (href : String) : Option String :=
  (scanBookId href.data).map String.mk

/-- Deduplication keeping first occurrences, as iteration over a
JavaScript `Set` does (`seen` accumulates the values already kept). -/
def dedupFirstAux (seen : List String) : List String → List String
  | [] => []
  | x :: xs =>
    if x ∈ seen then dedupFirstAux seen xs
    else x :: dedupFirstAux (x :: seen) xs

/-- `Array.from(new Set(...))` over the extraction order. -/
def dedupFirst (l : List String) : List String := dedupFirstAux [] l

/-- Lexicographic comparison of character lists, as JavaScript's default
`Array.prototype.sort` compares strings by code units. -/
def lexLeb : List Char → List Char → Bool
  | [], _ => true
  | _ :: _, [] => false
  | a :: as, b :: bs => if a = b then lexLeb as bs else decide (a < b)

/-- The string comparison used by the default sort. -/
def strLeb (a b : String) : Bool := lexLeb a.data b.data

/-- Pure part of `getBookIds`: the listing document is the list of
`href` values of its `a.bookImg[href]` anchors; extract ids, dedupe via
a `Set`, and sort with JavaScript's default (lexicographic string)
comparison. -/
def getBookIds (hrefs : List String) : List String :=
  List.insertionSort (fun a b => strLeb a b = true) (dedupFirst (hrefs.filterMap extractBookId))

/-- URL of the listing page: the template with `\x7bpage\x7d` substituted. -/
def listingUrl (pageNum : Option Int) : String :=
  replaceFirst BASE_STORE_URL "\x7bpage\x7d" (jsNumToString pageNum)

/-! ## Book metadata extractor (`crawlBookInfo`, server.js lines 49-85) -/

/-- URL of a book detail page. -/
def bookUrl (bookId : String) : String :=
  "https://www.tadu.com/book/" ++ bookId ++ "/"

/-- Raw cover-image candidate: the `data-src` of the first
`img[data-src]` element when that value is non-empty (`|| ""` plus the
`!img_url` test), else the `src` of the first `img` element. -/
def selectRawImg (imgs : List ImgEl) : String :=
  let fromLazy :=
    match imgs.find? (fun im => im.dataSrc.isSome) with
    | some im => im.dataSrc.getD ""
    | none => ""
  if fromLazy = "" then
    match imgs.head? with
    | some im => im.src.getD ""
    | none => ""
  else fromLazy

/-- URL normalization: protocol-relative values get `"https:"`, other
root-relative values get the site origin. -/
def normalizeImg (u : String) : String :=
  if jsStartsWith u "//" then "https:" ++ u
  else if jsStartsWith u "/" then "https://www.tadu.com" ++ u
  else u

/-- The regex test `/https:\/\/media\d+\.tadu\.com\/?\/?$/.test(u)`:
does `u` end with `"https://media"`, a nonempty digit run,
`".tadu.com"`, and zero, one or two final slashes? -/
def isPlaceholderUrl (u : String) : Bool :=
  mediaTailAfter u "" || mediaTailAfter u "/" || mediaTailAfter u "//"
where
  /-- Check the decomposition with a fixed slash tail `e`. -/
  mediaTailAfter (u : String) (e : String) : Bool :=
    jsEndsWith u (".tadu.com" ++ e) &&
      (let r := String.mk (u.data.take (u.data.length - (".tadu.com" ++ e).data.length))
       let ds := r.data.reverse.takeWhile Char.isDigit
       !ds.isEmpty && jsEndsWith (String.mk (r.data.take (r.data.length - ds.length))) "https://media")

/-- Cover-image resolution (server.js lines 59-77): candidate selection,
normalization, then the placeholder/empty fallback to the `og:image`
metadata value — which, being guarded by `if (metaImg)`, keeps the
candidate when the tag is absent or its value empty. -/
def resolveCover (doc : BookDoc) : String :=
  let u := normalizeImg (selectRawImg doc.imgs)
  if u = "" ∨ isPlaceholderUrl u = true ∨ hasSubStr u "coverbg.jpg" = true then
    match doc.ogImage with
    | some m => if m = "" then u else m
    | none => u
  else u

/-- One chapter of the final result. -/
structure ChapterRecord where
  index : Nat
  title : String
  content : String
deriving DecidableEq

/-- The per-book result object.  `chapters` is attached by the `/crawl`
handler after metadata extraction; `crawlBookInfo` itself leaves it
empty. -/
structure BookRecord where
  id : String
  title : String
  author : String
  cover_image : String
  description : String
  genres : List String
  url : String
  chapters : List ChapterRecord
deriving DecidableEq

/-- `crawlBookInfo(bookId)`: fetch the book page through `safeGet`
(whose exhaustion error propagates) and extract the metadata record,
every field defaulting to empty when the queried element or attribute
is absent. -/
def crawlBookInfo (net : Nat → Option BookDoc) (bookId : String) : Except String BookRecord :=
  match safeGet net (bookUrl bookId) RETRY_TIMES with
  | .error e => .error e
  | .ok d =>
    .ok { id := bookId
          title := d.bkNm.getD ""
          author := jsTrim d.authorText
          cover_image := resolveCover d
          description := jsTrim d.introText
          genres := d.sortListTexts.map (fun s => jsTrim s)
          url := bookUrl bookId
          chapters := [] }

/-! ## Chapter fetchers (server.js lines 90-122) -/

/-- URL of a chapter page. -/
def chapterUrl (bookId : String) (i : Nat) : String :=
  "https://www.tadu.com/book/" ++ bookId ++ "/" ++ toString i ++ "/?isfirstpart=true"

/-- URL of the chapter-content API endpoint. -/
def contentUrl (bookId : String) (i : Nat) : String :=
  "https://www.tadu.com/getPartContentByCodeTable/" ++ bookId ++ "/" ++ toString i

/-- The synthesized default chapter title. -/
def defaultTitle (chapterIndex : Nat) : String :=
  "Chương " ++ toString chapterIndex

/-- Title selection from a fetched chapter page: second `h4` when at
least two exist, else the first, else the default. -/
def titleFrom (doc : ChapterDoc) (chapterIndex : Nat) : String :=
  match doc.h4Texts with
  | _ :: t :: _ => jsTrim t
  | t :: [] => jsTrim t
  | [] => defaultTitle chapterIndex

/-- Outer retry loop of `crawlChapterTitle` with `a` attempts left and
request counter `k`.  Each attempt invokes `safeGet` (which itself
performs up to `RETRY_TIMES` underlying requests); a caught failure
moves to the next attempt, and exhaustion returns the default title. -/
def crawlChapterTitleGo (net : Nat → Option ChapterDoc) (chapterIndex : Nat) :
    Nat → Nat → String × Nat
  | 0, k => (defaultTitle chapterIndex, k)
  | a + 1, k =>
    match safeGetFrom net RETRY_TIMES k with
    | (some doc, j) => (titleFrom doc chapterIndex, j)
    | (none, j) => crawlChapterTitleGo net chapterIndex a j

/-- `crawlChapterTitle(bookId, chapterIndex)` as a value. -/
def crawlChapterTitle (net : Nat → Option ChapterDoc) (chapterIndex : Nat) : String :=
  (crawlChapterTitleGo net chapterIndex RETRY_TIMES 0).1

/-- Number of underlying requests `crawlChapterTitle` issues. -/
def crawlChapterTitleRequests (net : Nat → Option ChapterDoc) (chapterIndex : Nat) : Nat :=
  (crawlChapterTitleGo net chapterIndex RETRY_TIMES 0).2

/-- Strip markup tags from a string: models `cheerio.load(html)` then
`$.text()` (text outside `<...>` segments, concatenated). -/
def stripTagsAux : List Char → Bool → List Char
  | [], _ => []
  | c :: cs, true => if c = '>' then stripTagsAux cs false else stripTagsAux cs true
  | c :: cs, false => if c = '<' then stripTagsAux cs true else c :: stripTagsAux cs false

/-- Markup-to-plain-text conversion of the chapter content. -/
def stripTags (s : String) : String := String.mk (stripTagsAux s.data false)

/-- `.replace(/\r/g, "")`: remove every carriage return. -/
def removeCR (s : String) : String := String.mk (s.data.filter (fun c => c ≠ '\r'))

/-- The network oracle of the content API: `none` is a transport
failure, `some none` a response whose `data` is falsy/null, and
`some (some p)` a response with payload `p`. -/
abbrev ContentNet := Nat → Option (Option ContentPayload)

/-- Outer retry loop of `crawlChapterContent`: an attempt fails when
`safeGet` exhausts, when `data` is falsy, or when `data.status !== 200`;
a successful attempt returns the tag-stripped, CR-free content; and
exhaustion returns the empty string. -/
def crawlChapterContentGo (net : ContentNet) : Nat → Nat → String × Nat
  | 0, k => ("", k)
  | a + 1, k =>
    match safeGetFrom net RETRY_TIMES k with
    | (some d, j) =>
      match d with
      | some p =>
        if p.status = 200 then (removeCR (stripTags (p.content.getD "")), j)
        else crawlChapterContentGo net a j
      | none => crawlChapterContentGo net a j
    | (none, j) => crawlChapterContentGo net a j

/-- `crawlChapterContent(bookId, chapterIndex)` as a value. -/
def crawlChapterContent (net : ContentNet) : String :=
  (crawlChapterContentGo net RETRY_TIMES 0).1

/-- Number of underlying requests `crawlChapterContent` issues. -/
def crawlChapterContentRequests (net : ContentNet) : Nat :=
  (crawlChapterContentGo net RETRY_TIMES 0).2

/-! ## The network world and the chapter pipeline (server.js lines 124-137) -/

/-- All network behavior for one crawl request: for each URL, the
outcome of its k-th underlying request. -/
structure World where
  /-- listing pages, parsed to the `href`s of their `a.bookImg[href]` anchors. -/
  storePages : String → Nat → Option (List String)
  /-- book detail pages. -/
  bookPages : String → Nat → Option BookDoc
  /-- chapter pages. -/
  chapterPages : String → Nat → Option ChapterDoc
  /-- content API endpoints. -/
  contentApi : String → Nat → Option (Option ContentPayload)

/-- The task run (under the chapter `p-limit`) for one 1-based chapter
index: fetch the title, then the content. -/
def chapterTask (w : World) (bookId : String) (i : Nat) : ChapterRecord :=
  { index := i
    title := crawlChapterTitle (w.chapterPages (chapterUrl bookId i)) i
    content := crawlChapterContent (w.contentApi (contentUrl bookId i)) }

/-- `crawlFirstNChapters(bookId, n)`: `Promise.all` over the tasks for
indices `1..n`; the result list is positional (launch order), whatever
the completion order (see `collectByIndex` below). -/
def crawlFirstNChapters (w : World) (bookId : String) (n : Nat) : List ChapterRecord :=
  ((List.range n).map (fun i => i + 1)).map (chapterTask w bookId)

/-- The sequence of completion events of a `Promise.all` run: tasks
(identified by their launch position, carrying their eventual results)
complete in the order given by `order`. -/
def completeInOrder {α : Type} (tasks : List α) (order : List Nat) : List (Nat × α) :=
  order.filterMap (fun p => (tasks.get? p).map (fun v => (p, v)))

/-- How `Promise.all` assembles its result: each completion event is
stored at its task's launch position. -/
def collectByIndex {α : Type} (n : Nat) (events : List (Nat × α)) : List (Option α) :=
  (List.range n).map (fun j => (events.find? (fun e => e.1 == j)).map Prod.snd)

/-! ## The `/crawl` handler (server.js lines 142-165) -/

/-- `Promise.all` over fallible per-book tasks, keeping launch order;
a rejection makes the whole aggregate reject. -/
def mapE (f : α → Except ε β) : List α → Except ε (List β)
  | [] => .ok []
  | a :: as =>
    match f a with
    | .error e => .error e
    | .ok b => (mapE f as).map (fun bs => b :: bs)

/-- The per-book task of the `/crawl` handler: metadata first (its
failure propagates), then the chapter pipeline attached as `chapters`. -/
def crawlBook (w : World) (bookId : String) (numChapters : Option Int) :
    Except String BookRecord :=
  match crawlBookInfo (w.bookPages (bookUrl bookId)) bookId with
  | .error e => .error e
  | .ok info => .ok { info with chapters := crawlFirstNChapters w bookId (toLength numChapters) }

/-- The three possible responses of `GET /crawl`. -/
inductive CrawlResponse where
  | ok (results : List BookRecord)
  | notFound (error : String)
  | serverError (error : String)
deriving DecidableEq

/-- The `/crawl` request handler: parse the query (with JavaScript `||`
defaults), fetch and extract the listing, answer 404 on an empty id
list, fan out over the books, and turn any propagated error into a 500
response.  (`Promise.all` reports the temporally first rejection; the
model reports the first in launch order — the claims only depend on a
rejection being reported.) -/
def crawlHandler (w : World) (pageQ numChaptersQ : Option String) : CrawlResponse :=
  let pageNum := parseIntJS (jsOrDefault pageQ "1")
  let numChapters := parseIntJS (jsOrDefault numChaptersQ "5")
  match (safeGet (w.storePages (listingUrl pageNum)) (listingUrl pageNum) RETRY_TIMES).map getBookIds with
  | .error e => .serverError e
  | .ok bookIds =>
    if bookIds = [] then .notFound "Không tìm thấy book nào"
    else
      match mapE (fun bookId => crawlBook w bookId numChapters) bookIds with
      | .error e => .serverError e
      | .ok results => .ok results

/-! ## Concrete fixtures used in closed-form checks -/

/-- A book page with nothing extractable. -/
def emptyBookDoc : BookDoc :=
  { bkNm := none, authorText := "", imgs := [], ogImage := none, introText := "", sortListTexts := [] }

/-- A book page whose only image resolves to a bare media-host URL and
that carries no `og:image` tag. -/
def placeholderNoOgDoc : BookDoc :=
  { emptyBookDoc with imgs := [{ dataSrc := none, src := some "https://media3.tadu.com/" }] }

/-- A book page whose only image is the `coverbg.jpg` placeholder and
whose `og:image` tag holds a real URL. -/
def coverbgWithOgDoc : BookDoc :=
  { emptyBookDoc with
      imgs := [{ dataSrc := none, src := some "/covers/coverbg.jpg" }]
      ogImage := some "https://img.tadu.com/real.png" }

/-- A world in which every request fails. -/
def failWorld : World :=
  { storePages := fun _ _ => none
    bookPages := fun _ _ => none
    chapterPages := fun _ _ => none
    contentApi := fun _ _ => none }

/-- A world whose listing yields one book and whose book pages load,
while every chapter-level request fails. -/
def oneBookWorld : World :=
  { storePages := fun _ _ => some ["/book/5/"]
    bookPages := fun _ _ => some emptyBookDoc
    chapterPages := fun _ _ => none
    contentApi := fun _ _ => none }

/-- A world whose listing yields one book but whose book page never
loads. -/
def metaFailWorld : World :=
  { storePages := fun _ _ => some ["/book/5/"]
    bookPages := fun _ _ => none
    chapterPages := fun _ _ => none
    contentApi := fun _ _ => none }

/-! ## Basic lemmas about the fetch loops -/

theorem safeGetFrom_allNone {δ : Type} {net : Nat → Option δ} (h : ∀ j, net j = none) :
    ∀ r k, safeGetFrom net r k = (none, k + r) := by
  intro r
  induction r with
  | zero => intro k; rfl
  | succ r ih =>
    intro k
    rw [safeGetFrom, h k, ih (k + 1)]
    exact congrArg (Prod.mk (none : Option δ)) (by omega)

theorem safeGet_allNone {δ : Type} {net : Nat → Option δ} (h : ∀ j, net j = none)
    (url : String) (retries : Nat) : safeGet net url retries = .error (fetchErrMsg url retries) := by
  rw [safeGet, safeGetFrom_allNone h]

theorem safeGetRequests_allNone {δ : Type} {net : Nat → Option δ} (h : ∀ j, net j = none)
    (retries : Nat) : safeGetRequests net retries = retries := by
  rw [safeGetRequests, safeGetFrom_allNone h]
  exact Nat.zero_add retries

theorem safeGetFrom_first {δ : Type} {net : Nat → Option δ} {k : Nat} {v : δ}
    (h : net k = some v) (r : Nat) : safeGetFrom net (r + 1) k = (some v, k + 1) := by
  rw [safeGetFrom, h]

theorem safeGetFrom_some_exists {δ : Type} {net : Nat → Option δ} :
    ∀ {r k j : Nat} {v : δ}, safeGetFrom net r k = (some v, j) → ∃ i, net i = some v := by
  intro r
  induction r with
  | zero => intro k j v h; exact absurd (congrArg Prod.fst h) (by simp [safeGetFrom])
  | succ r ih =>
    intro k j v h
    rw [safeGetFrom] at h
    cases hk : net k with
    | some w => rw [hk] at h; exact ⟨k, hk.trans (congrArg some (by injection congrArg Prod.fst h))⟩
    | none => rw [hk] at h; exact ih h

theorem crawlChapterTitleGo_allNone {net : Nat → Option ChapterDoc} (h : ∀ j, net j = none)
    (i : Nat) : ∀ a k, crawlChapterTitleGo net i a k = (defaultTitle i, k + RETRY_TIMES * a) := by
  intro a
  induction a with
  | zero => intro k; rw [crawlChapterTitleGo]; exact congrArg (Prod.mk (defaultTitle i)) (by omega)
  | succ a ih =>
    intro k
    rw [crawlChapterTitleGo, safeGetFrom_allNone h]
    show crawlChapterTitleGo net i a (k + RETRY_TIMES) = _
    rw [ih (k + RETRY_TIMES)]
    exact congrArg (Prod.mk (defaultTitle i)) (by simp only [RETRY_TIMES]; omega)

theorem crawlChapterTitle_allNone {net : Nat → Option ChapterDoc} (h : ∀ j, net j = none)
    (i : Nat) : crawlChapterTitle net i = defaultTitle i := by
  rw [crawlChapterTitle, crawlChapterTitleGo_allNone h]

theorem crawlChapterTitleRequests_allNone {net : Nat → Option ChapterDoc} (h : ∀ j, net j = none)
    (i : Nat) : crawlChapterTitleRequests net i = 9 := by
  rw [crawlChapterTitleRequests, crawlChapterTitleGo_allNone h]
  simp [RETRY_TIMES]

theorem crawlChapterContentGo_allNone {net : ContentNet} (h : ∀ j, net j = none) :
    ∀ a k, crawlChapterContentGo net a k = ("", k + RETRY_TIMES * a) := by
  intro a
  induction a with
  | zero => intro k; rw [crawlChapterContentGo]; exact congrArg (Prod.mk "") (by omega)
  | succ a ih =>
    intro k
    rw [crawlChapterContentGo, safeGetFrom_allNone h]
    show crawlChapterContentGo net a (k + RETRY_TIMES) = _
    rw [ih (k + RETRY_TIMES)]
    exact congrArg (Prod.mk "") (by simp only [RETRY_TIMES]; omega)

theorem crawlChapterContent_allNone {net : ContentNet} (h : ∀ j, net j = none) :
    crawlChapterContent net = "" := by
  rw [crawlChapterContent, crawlChapterContentGo_allNone h]

theorem crawlChapterContentRequests_allNone {net : ContentNet} (h : ∀ j, net j = none) :
    crawlChapterContentRequests net = 9 := by
  rw [crawlChapterContentRequests, crawlChapterContentGo_allNone h]
  simp [RETRY_TIMES]

/-- Every attempt answers, but with a non-success status: each outer
attempt consumes exactly one underlying request, and the loop exhausts
into the empty string. -/
theorem crawlChapterContentGo_badStatus {net : ContentNet}
    (h : ∀ j, ∃ p, net j = some (some p) ∧ p.status ≠ 200) :
    ∀ a k, crawlChapterContentGo net a k = ("", k + a) := by
  intro a
  induction a with
  | zero => intro k; rfl
  | succ a ih =>
    intro k
    obtain ⟨p, hp, hs⟩ := h k
    rw [crawlChapterContentGo]
    cases hR : RETRY_TIMES with
    | zero => exact absurd hR (by simp [RETRY_TIMES])
    | succ r =>
      rw [safeGetFrom_first hp]
      show (if p.status = 200 then (removeCR (stripTags (p.content.getD "")), k + 1)
            else crawlChapterContentGo net a (k + 1)) = ("", k + (a + 1))
      rw [if_neg hs, ih (k + 1)]
      exact congrArg (Prod.mk "") (by omega)

/-- Any mix of transport failures, falsy payloads and non-success
statuses exhausts into the empty string. -/
theorem crawlChapterContentGo_absorb {net : ContentNet}
    (h : ∀ j, net j = none ∨ net j = some none ∨ ∃ p, net j = some (some p) ∧ p.status ≠ 200) :
    ∀ a k, (crawlChapterContentGo net a k).1 = "" := by
  intro a
  induction a with
  | zero => intro k; rw [crawlChapterContentGo]
  | succ a ih =>
    intro k
    rw [crawlChapterContentGo]
    cases hsg : safeGetFrom net RETRY_TIMES k with
    | mk o j =>
      cases o with
      | none => exact ih j
      | some d =>
        obtain ⟨i, hi⟩ := safeGetFrom_some_exists hsg
        rcases h i with h0 | h1 | ⟨p, hp, hs⟩
        · rw [h0] at hi; cases hi
        · rw [h1] at hi
          injection hi with hi
          rw [← hi]
          exact ih j
        · rw [hp] at hi
          injection hi with hi
          rw [← hi]
          simp only [if_neg hs]
          exact ih j

/-- Success on a first attempt returns the cleaned content directly. -/
theorem crawlChapterContent_success {net : ContentNet} {p : ContentPayload}
    (h : net 0 = some (some p)) (hs : p.status = 200) :
    crawlChapterContent net = removeCR (stripTags (p.content.getD "")) := by
  rw [crawlChapterContent]
  cases hR : RETRY_TIMES with
  | zero => exact absurd hR (by simp [RETRY_TIMES])
  | succ r =>
    rw [crawlChapterContentGo, hR, safeGetFrom_first h]
    show (if p.status = 200 then (removeCR (stripTags (p.content.getD "")), 0 + 1)
          else crawlChapterContentGo net r (0 + 1)).1 = removeCR (stripTags (p.content.getD ""))
    rw [if_pos hs]

/-- The cleaned chapter content never contains a carriage return. -/
theorem removeCR_no_cr (s : String) : ∀ c ∈ (removeCR s).data, c ≠ '\r' := by
  intro c hc
  rw [removeCR] at hc
  have hc' : c ∈ List.filter (fun c => decide (c ≠ '\r')) s.data := hc
  rw [List.mem_filter] at hc'
  simpa using hc'.2

/-! ## Lemmas about the book fan-out (`mapE`) -/

theorem mapE_error_of_mem {α ε β : Type} {f : α → Except ε β} :
    ∀ {l : List α} {b : α} {e : ε}, b ∈ l → f b = .error e →
      ∃ e', mapE f l = .error e' := by
  intro l
  induction l with
  | nil => intro b e hb _; cases hb
  | cons a as ih =>
    intro b e hb hf
    rcases List.mem_cons.mp hb with rfl | hb'
    · exact ⟨e, by rw [mapE, hf]⟩
    · cases hfa : f a with
      | error e2 => exact ⟨e2, by rw [mapE, hfa]⟩
      | ok bb =>
        obtain ⟨e', he'⟩ := ih hb' hf
        exact ⟨e', by rw [mapE, hfa, he']; rfl⟩

theorem mapE_ok_map {α ε β : Type} {f : α → Except ε β} (g : β → α) :
    ∀ l : List α, (∀ b ∈ l, ∃ r, f b = .ok r ∧ g r = b) →
      ∃ rs, mapE f l = .ok rs ∧ rs.length = l.length ∧ rs.map g = l := by
  intro l
  induction l with
  | nil => intro _; exact ⟨[], rfl, rfl, rfl⟩
  | cons a as ih =>
    intro h
    obtain ⟨r, hr, hg⟩ := h a (List.mem_cons_self a as)
    obtain ⟨rs, h1, h2, h3⟩ := ih (fun b hb => h b (List.mem_cons_of_mem _ hb))
    refine ⟨r :: rs, ?_, by simp [h2], by simp [hg, h3]⟩
    rw [mapE, hr, h1]
    rfl

theorem mapE_mem_ok {α ε β : Type} {f : α → Except ε β} :
    ∀ {l : List α} {rs : List β}, mapE f l = .ok rs → ∀ r ∈ rs, ∃ b ∈ l, f b = .ok r := by
  intro l
  induction l with
  | nil =>
    intro rs h r hr
    rw [mapE] at h
    injection h with h
    subst h
    cases hr
  | cons a as ih =>
    intro rs h r hr
    cases hfa : f a with
    | error e => rw [mapE, hfa] at h; cases h
    | ok b =>
      cases hm : mapE f as with
      | error e => rw [mapE, hfa, hm] at h; cases h
      | ok bs =>
        rw [mapE, hfa, hm] at h
        injection h with h
        subst h
        rcases List.mem_cons.mp hr with rfl | hr'
        · exact ⟨a, List.mem_cons_self a as, hfa⟩
        · obtain ⟨b', hb', hfb⟩ := ih hm r hr'
          exact ⟨b', List.mem_cons_of_mem _ hb', hfb⟩

/-! ## Lemmas about deduplication and the listing extractor -/

theorem mem_dedupFirstAux :
    ∀ (l : List String) (seen : List String) (x : String),
      x ∈ dedupFirstAux seen l ↔ x ∈ l ∧ x ∉ seen := by
  intro l
  induction l with
  | nil => intro seen x; simp [dedupFirstAux]
  | cons y ys ih =>
    intro seen x
    by_cases hy : y ∈ seen
    · rw [dedupFirstAux, if_pos hy, ih]
      constructor
      · rintro ⟨hx, hs⟩
        exact ⟨List.mem_cons_of_mem _ hx, hs⟩
      · rintro ⟨hx, hs⟩
        rcases List.mem_cons.mp hx with rfl | hx'
        · exact absurd hy hs
        · exact ⟨hx', hs⟩
    · rw [dedupFirstAux, if_neg hy]
      constructor
      · intro hx
        rcases List.mem_cons.mp hx with rfl | hx'
        · exact ⟨List.mem_cons_self _ _, hy⟩
        · obtain ⟨h1, h2⟩ := (ih (y :: seen) x).mp hx'
          exact ⟨List.mem_cons_of_mem _ h1, fun hs => h2 (List.mem_cons_of_mem _ hs)⟩
      · rintro ⟨hx, hs⟩
        rcases List.mem_cons.mp hx with rfl | hx'
        · exact List.mem_cons_self _ _
        · by_cases hxy : x = y
          · subst hxy; exact List.mem_cons_self _ _
          · exact List.mem_cons_of_mem _ ((ih (y :: seen) x).mpr
              ⟨hx', fun hm => by
                rcases List.mem_cons.mp hm with h | h
                · exact hxy h
                · exact hs h⟩)

theorem nodup_dedupFirstAux : ∀ (l : List String) (seen : List String),
    (dedupFirstAux seen l).Nodup := by
  intro l
  induction l with
  | nil => intro seen; simp [dedupFirstAux]
  | cons y ys ih =>
    intro seen
    by_cases hy : y ∈ seen
    · rw [dedupFirstAux, if_pos hy]; exact ih seen
    · rw [dedupFirstAux, if_neg hy]
      refine List.nodup_cons.mpr ⟨?_, ih (y :: seen)⟩
      intro hmem
      exact ((mem_dedupFirstAux ys (y :: seen) y).mp hmem).2 (List.mem_cons_self _ _)

theorem mem_dedupFirst (l : List String) (x : String) : x ∈ dedupFirst l ↔ x ∈ l := by
  rw [dedupFirst, mem_dedupFirstAux]
  simp

theorem nodup_dedupFirst (l : List String) : (dedupFirst l).Nodup :=
  nodup_dedupFirstAux l []

/-! ## Lemmas about `Promise.all` assembly -/

theorem chapterTask_index (w : World) (bookId : String) (i : Nat) :
    (chapterTask w bookId i).index = i := rfl

theorem find?_key_eq {α : Type} (j : Nat) (v : α) :
    ∀ events : List (Nat × α), (∀ e ∈ events, e.1 = j → e.2 = v) → (∃ e ∈ events, e.1 = j) →
      events.find? (fun e => e.1 == j) = some (j, v) := by
  intro events
  induction events with
  | nil => rintro _ ⟨e, he, _⟩; cases he
  | cons e es ih =>
    intro hall hex
    by_cases he : e.1 = j
    · have h2 : e.2 = v := hall e (List.mem_cons_self _ _) he
      rw [List.find?_cons_of_pos _ (by simp [he])]
      obtain ⟨e1, e2⟩ := e
      simp only at he h2
      rw [he, h2]
    · rw [List.find?_cons_of_neg _ (by simp [he])]
      refine ih (fun e' he' hj => hall e' (List.mem_cons_of_mem _ he') hj) ?_
      obtain ⟨e', he', hj⟩ := hex
      rcases List.mem_cons.mp he' with rfl | hmem
      · exact absurd hj he
      · exact ⟨e', hmem, hj⟩

theorem completeInOrder_mem {α : Type} {tasks : List α} {order : List Nat} :
    ∀ e ∈ completeInOrder tasks order, e.1 ∈ order ∧ tasks.get? e.1 = some e.2 := by
  intro e he
  rw [completeInOrder, List.mem_filterMap] at he
  obtain ⟨p, hp, hmap⟩ := he
  rw [Option.map_eq_some'] at hmap
  obtain ⟨v, hv, hev⟩ := hmap
  cases hev
  exact ⟨hp, hv⟩

theorem completeInOrder_mem_of {α : Type} {tasks : List α} {order : List Nat} {j : Nat} {v : α}
    (hj : j ∈ order) (hv : tasks.get? j = some v) : (j, v) ∈ completeInOrder tasks order := by
  rw [completeInOrder, List.mem_filterMap]
  exact ⟨j, hj, by rw [hv]; rfl⟩

/-- `Promise.all` reassembly is completion-order independent: whatever
permutation of the launch positions the completion events follow, the
collected result is the launch-order list. -/
theorem collectByIndex_perm {α : Type} (tasks : List α) (n : Nat) (order : List Nat)
    (hlen : tasks.length = n) (hperm : order.Perm (List.range n)) :
    collectByIndex n (completeInOrder tasks order) = tasks.map some := by
  apply List.ext_getElem
  · simp [collectByIndex, hlen]
  · intro j h1 h2
    have hjn : j < n := by simpa [collectByIndex] using h1
    have hjt : j < tasks.length := by omega
    simp only [collectByIndex]
    rw [List.getElem_map, List.getElem_range]
    have hfind : (completeInOrder tasks order).find? (fun e => e.1 == j)
        = some (j, tasks.get ⟨j, hjt⟩) := by
      apply find?_key_eq
      · intro e he hej
        obtain ⟨-, hget⟩ := completeInOrder_mem e he
        rw [hej] at hget
        rw [List.get?_eq_get hjt] at hget
        injection hget with hget
        rw [hget]
      · refine ⟨(j, tasks.get ⟨j, hjt⟩), ?_, rfl⟩
        exact completeInOrder_mem_of (hperm.mem_iff.mpr (List.mem_range.mpr hjn))
          (List.get?_eq_get hjt)
    rw [hfind, List.getElem_map]
    rw [Option.map_some']
    exact congrArg some (List.get_eq_getElem tasks ⟨j, hjt⟩)

/-! ## Inversion lemmas for the per-book task and the handler -/

theorem crawlBookInfo_ok_inv {net : Nat → Option BookDoc} {b : String} {info : BookRecord}
    (h : crawlBookInfo net b = .ok info) : info.id = b ∧ info.chapters = [] := by
  rw [crawlBookInfo] at h
  cases hs : safeGet net (bookUrl b) RETRY_TIMES with
  | error e => rw [hs] at h; cases h
  | ok d =>
    rw [hs] at h
    injection h with h
    subst h
    exact ⟨rfl, rfl⟩

theorem crawlBook_ok_inv {w : World} {b : String} {nc : Option Int} {r : BookRecord}
    (h : crawlBook w b nc = .ok r) :
    r.id = b ∧ r.chapters = crawlFirstNChapters w b (toLength nc) := by
  rw [crawlBook] at h
  cases hi : crawlBookInfo (w.bookPages (bookUrl b)) b with
  | error e => rw [hi] at h; cases h
  | ok info =>
    rw [hi] at h
    injection h with h
    subst h
    exact ⟨(crawlBookInfo_ok_inv hi).1, rfl⟩

theorem crawlBook_ok_of {w : World} {b : String} {d : BookDoc} (nc : Option Int)
    (hs : safeGet (w.bookPages (bookUrl b)) (bookUrl b) RETRY_TIMES = .ok d) :
    ∃ r, crawlBook w b nc = .ok r ∧ r.id = b
      ∧ r.chapters = crawlFirstNChapters w b (toLength nc) := by
  rw [crawlBook, crawlBookInfo, hs]
  exact ⟨_, rfl, rfl, rfl⟩

theorem crawlBook_error_of {w : World} {b : String} (nc : Option Int)
    (hf : ∀ k, w.bookPages (bookUrl b) k = none) :
    crawlBook w b nc = .error (fetchErrMsg (bookUrl b) RETRY_TIMES) := by
  rw [crawlBook, crawlBookInfo, safeGet_allNone hf]

theorem mem_crawlFirstNChapters {w : World} {b : String} {n : Nat} {c : ChapterRecord}
    (hc : c ∈ crawlFirstNChapters w b n) :
    c = chapterTask w b c.index ∧ 1 ≤ c.index ∧ c.index ≤ n := by
  rw [crawlFirstNChapters, List.mem_map] at hc
  obtain ⟨i, hi, hci⟩ := hc
  rw [List.mem_map] at hi
  obtain ⟨i0, hi0, rfl⟩ := hi
  rw [List.mem_range] at hi0
  subst hci
  exact ⟨rfl, by simp [chapterTask_index], by simp [chapterTask_index]; omega⟩

theorem crawlHandler_listing_error {w : World} {pq cq : Option String} {e : String}
    (h : safeGet (w.storePages (listingUrl (parseIntJS (jsOrDefault pq "1"))))
          (listingUrl (parseIntJS (jsOrDefault pq "1"))) RETRY_TIMES = .error e) :
    crawlHandler w pq cq = .serverError e := by
  simp only [crawlHandler, h, Except.map]

theorem crawlHandler_notFound {w : World} {pq cq : Option String} {hrefs : List String}
    (h : safeGet (w.storePages (listingUrl (parseIntJS (jsOrDefault pq "1"))))
          (listingUrl (parseIntJS (jsOrDefault pq "1"))) RETRY_TIMES = .ok hrefs)
    (he : getBookIds hrefs = []) :
    crawlHandler w pq cq = .notFound "Không tìm thấy book nào" := by
  simp only [crawlHandler, h, Except.map, he, if_pos]

theorem crawlHandler_books_error {w : World} {pq cq : Option String} {hrefs : List String}
    {e : String}
    (h : safeGet (w.storePages (listingUrl (parseIntJS (jsOrDefault pq "1"))))
          (listingUrl (parseIntJS (jsOrDefault pq "1"))) RETRY_TIMES = .ok hrefs)
    (hne : getBookIds hrefs ≠ [])
    (hm : mapE (fun b => crawlBook w b (parseIntJS (jsOrDefault cq "5"))) (getBookIds hrefs)
          = .error e) :
    crawlHandler w pq cq = .serverError e := by
  simp only [crawlHandler, h, Except.map, if_neg hne, hm]

theorem crawlHandler_books_ok {w : World} {pq cq : Option String} {hrefs : List String}
    {rs : List BookRecord}
    (h : safeGet (w.storePages (listingUrl (parseIntJS (jsOrDefault pq "1"))))
          (listingUrl (parseIntJS (jsOrDefault pq "1"))) RETRY_TIMES = .ok hrefs)
    (hne : getBookIds hrefs ≠ [])
    (hm : mapE (fun b => crawlBook w b (parseIntJS (jsOrDefault cq "5"))) (getBookIds hrefs)
          = .ok rs) :
    crawlHandler w pq cq = .ok rs := by
  simp only [crawlHandler, h, Except.map, if_neg hne, hm]

/-- The boolean sort comparison agrees with the lexicographic order on
character lists (`¬ bs < as` is the core list order's `as ≤ bs`). -/
theorem lexLeb_iff_not_lt : ∀ as bs : List Char, lexLeb as bs = true ↔ ¬ bs < as := by
  intro as
  induction as with
  | nil =>
    intro bs
    constructor
    · intro _ h
      cases h
    · intro _
      rfl
  | cons a as ih =>
    intro bs
    cases bs with
    | nil =>
      constructor
      · intro h
        simp [lexLeb] at h
      · intro h
        exact absurd (List.nil_lt_cons a as) h
    | cons b bs =>
      by_cases hab : a = b
      · subst hab
        rw [lexLeb, if_pos rfl, ih bs]
        constructor
        · intro h hlt
          cases hlt with
          | cons h3 => exact h h3
          | rel h1 => exact absurd h1 (lt_irrefl a)
        · intro h hlt
          exact h (List.Lex.cons hlt)
      · rw [lexLeb, if_neg hab]
        constructor
        · intro h hlt
          have hba : a < b := of_decide_eq_true h
          cases hlt with
          | cons h3 => exact hab rfl
          | rel h1 => exact absurd h1 (lt_asymm hba)
        · intro h
          apply decide_eq_true
          rcases lt_trichotomy a b with hlt | heq | hgt
          · exact hlt
          · exact absurd heq hab
          · exact absurd (List.Lex.rel hgt) h

/-- The sort comparison is exactly `≤` on strings. -/
theorem strLeb_iff_le (a b : String) : strLeb a b = true ↔ a ≤ b := by
  rw [strLeb, lexLeb_iff_not_lt, String.le_iff_toList_le]
  exact not_lt

/-! ## Claim C1 -/

/-- C1 counterexample: the claim says an always-failing chapter fetch is
attempted exactly 3 times, but `crawlChapterTitle` wraps `safeGet`
(3 underlying attempts) in its own 3-round retry loop, so an
always-failing chapter-title target sees 9 underlying requests. -/
theorem chapter_retry_count_not_three :
    crawlChapterTitleRequests (fun _ => none) 1 = 9
    ∧ crawlChapterTitleRequests (fun _ => none) 1 ≠ 3 := by
  have h := @crawlChapterTitleRequests_allNone (fun _ => none) (fun _ => rfl) 1
  exact ⟨h, by rw [h]; decide⟩

/-- C1 (amended): against an always-failing target, `safeGet` (the
metadata/listing path, including `crawlBookInfo`) issues exactly
`RETRY_TIMES = 3` underlying requests and then fails, while the chapter
path (`crawlChapterTitle`, `crawlChapterContent`) retries the whole
fetch 3 times, each round invoking `safeGet` with its own 3 attempts —
9 underlying requests — before resolving to the default value. -/
theorem retry_exhaustion_counts :
    (∀ (δ : Type) (net : Nat → Option δ) (url : String), (∀ k, net k = none) →
        safeGetRequests net RETRY_TIMES = 3
        ∧ safeGet net url RETRY_TIMES = .error (fetchErrMsg url RETRY_TIMES))
  ∧ (∀ (net : Nat → Option BookDoc) (b : String), (∀ k, net k = none) →
        crawlBookInfo net b = .error (fetchErrMsg (bookUrl b) RETRY_TIMES))
  ∧ (∀ (net : Nat → Option ChapterDoc) (i : Nat), (∀ k, net k = none) →
        crawlChapterTitleRequests net i = 9 ∧ crawlChapterTitle net i = defaultTitle i)
  ∧ (∀ net : ContentNet, (∀ k, net k = none) →
        crawlChapterContentRequests net = 9 ∧ crawlChapterContent net = "") := by
  refine ⟨?_, ?_, ?_, ?_⟩
  · intro δ net url h
    exact ⟨(safeGetRequests_allNone h RETRY_TIMES).trans rfl, safeGet_allNone h url RETRY_TIMES⟩
  · intro net b h
    rw [crawlBookInfo, safeGet_allNone h]
  · intro net i h
    exact ⟨crawlChapterTitleRequests_allNone h i, crawlChapterTitle_allNone h i⟩
  · intro net h
    exact ⟨crawlChapterContentRequests_allNone h, crawlChapterContent_allNone h⟩

/-- C1 witness: the amended counts at concrete always-failing targets. -/
theorem retry_exhaustion_counts_witness :
    (safeGetRequests (fun _ => (none : Option (List String))) RETRY_TIMES = 3
      ∧ safeGet (fun _ => (none : Option (List String))) "u" RETRY_TIMES
          = .error (fetchErrMsg "u" RETRY_TIMES))
    ∧ crawlBookInfo (fun _ => none) "5" = .error (fetchErrMsg (bookUrl "5") RETRY_TIMES)
    ∧ (crawlChapterTitleRequests (fun _ => none) 2 = 9
      ∧ crawlChapterTitle (fun _ => none) 2 = defaultTitle 2)
    ∧ (crawlChapterContentRequests (fun _ => none) = 9
      ∧ crawlChapterContent (fun _ => none) = "") :=
  ⟨retry_exhaustion_counts.1 _ _ "u" (fun _ => rfl),
   retry_exhaustion_counts.2.1 _ "5" (fun _ => rfl),
   retry_exhaustion_counts.2.2.1 _ 2 (fun _ => rfl),
   retry_exhaustion_counts.2.2.2 _ (fun _ => rfl)⟩

/-! ## Claim C8 -/

/-- C8 counterexample: on a chapter page without any `h4`, the code
synthesizes the Vietnamese default "Chương 1", not the literal
"Chapter 1" stated by the claim. -/
theorem chapter_default_title_not_english :
    crawlChapterTitle (fun _ => some { h4Texts := [] }) 1 = "Chương 1"
    ∧ crawlChapterTitle (fun _ => some { h4Texts := [] }) 1 ≠ "Chapter 1" := by
  constructor
  · rfl
  · decide

/-- C8 (amended): for a successfully fetched chapter page, the title is
the trimmed text of the second `h4` when at least two exist, else the
trimmed text of the first, else the synthesized default "Chương {index}"
(the source's literal, rather than the claim's "Chapter {index}"). -/
theorem chapter_title_selection :
    ∀ (doc : ChapterDoc) (i : Nat),
      (∀ a b l, doc.h4Texts = a :: b :: l → titleFrom doc i = jsTrim b)
    ∧ (∀ a, doc.h4Texts = [a] → titleFrom doc i = jsTrim a)
    ∧ (doc.h4Texts = [] → titleFrom doc i = defaultTitle i)
    ∧ defaultTitle i = "Chương " ++ toString i
    ∧ (∀ net : Nat → Option ChapterDoc, net 0 = some doc →
          crawlChapterTitle net i = titleFrom doc i) := by
  intro doc i
  refine ⟨?_, ?_, ?_, rfl, ?_⟩
  · intro a b l h
    rw [titleFrom, h]
  · intro a h
    rw [titleFrom, h]
  · intro h
    rw [titleFrom, h]
  · intro net h
    rw [crawlChapterTitle]
    cases hR : RETRY_TIMES with
    | zero => exact absurd hR (by simp [RETRY_TIMES])
    | succ r =>
      rw [crawlChapterTitleGo, hR, safeGetFrom_first h]

/-- C8 witness: the selection rule at concrete documents. -/
theorem chapter_title_selection_witness :
    titleFrom { h4Texts := ["a", " b "] } 7 = jsTrim " b "
    ∧ titleFrom { h4Texts := ["x"] } 7 = jsTrim "x"
    ∧ titleFrom { h4Texts := [] } 7 = defaultTitle 7
    ∧ crawlChapterTitle (fun _ => some { h4Texts := ["a", " b "] }) 7
        = titleFrom { h4Texts := ["a", " b "] } 7 :=
  ⟨(chapter_title_selection _ 7).1 "a" " b " [] rfl,
   (chapter_title_selection _ 7).2.1 "x" rfl,
   (chapter_title_selection _ 7).2.2.1 rfl,
   (chapter_title_selection _ 7).2.2.2.2 _ rfl⟩

/-! ## Claim C3 -/

/-- C3 counterexample: a cover candidate matching the bare media-host
pattern on a page without an `og:image` tag is kept, not replaced by the
empty string as the claim requires. -/
theorem cover_placeholder_kept_without_og :
    isPlaceholderUrl (normalizeImg (selectRawImg placeholderNoOgDoc.imgs)) = true
    ∧ placeholderNoOgDoc.ogImage = none
    ∧ resolveCover placeholderNoOgDoc = "https://media3.tadu.com/"
    ∧ resolveCover placeholderNoOgDoc ≠ "" := by
  refine ⟨by decide, rfl, rfl, by decide⟩

/-- C3 (amended): when the normalized candidate is empty, matches the
bare media-host pattern, or contains the placeholder filename token, it
is replaced by the `og:image` value only when that tag is present with a
non-empty value; when the tag is absent (or its value empty) the
candidate is kept unchanged — so the cover is empty only when the
candidate itself was empty. -/
theorem cover_placeholder_fallback :
    ∀ doc : BookDoc,
      (normalizeImg (selectRawImg doc.imgs) = ""
        ∨ isPlaceholderUrl (normalizeImg (selectRawImg doc.imgs)) = true
        ∨ hasSubStr (normalizeImg (selectRawImg doc.imgs)) "coverbg.jpg" = true) →
      (∀ m, doc.ogImage = some m → m ≠ "" → resolveCover doc = m)
      ∧ (doc.ogImage = none → resolveCover doc = normalizeImg (selectRawImg doc.imgs))
      ∧ (doc.ogImage = some "" → resolveCover doc = normalizeImg (selectRawImg doc.imgs)) := by
  intro doc hcond
  refine ⟨?_, ?_, ?_⟩
  · intro m hm hne
    simp only [resolveCover]
    rw [if_pos hcond, hm]
    show (if m = "" then normalizeImg (selectRawImg doc.imgs) else m) = m
    rw [if_neg hne]
  · intro hm
    simp only [resolveCover]
    rw [if_pos hcond, hm]
  · intro hm
    simp only [resolveCover]
    rw [if_pos hcond, hm]
    show (if ("" : String) = "" then normalizeImg (selectRawImg doc.imgs) else "")
        = normalizeImg (selectRawImg doc.imgs)
    simp

/-- C3 witness: the fallback at concrete pages — a placeholder filename
with a real `og:image` is replaced; an empty candidate with no
`og:image` stays empty. -/
theorem cover_placeholder_fallback_witness :
    resolveCover coverbgWithOgDoc = "https://img.tadu.com/real.png"
    ∧ resolveCover emptyBookDoc = "" := by
  constructor
  · exact (cover_placeholder_fallback coverbgWithOgDoc (by decide)).1 _ rfl (by decide)
  · exact (cover_placeholder_fallback emptyBookDoc (Or.inl rfl)).2.1 rfl

/-! ## Claim C6 -/

/-- C6 counterexample: an image whose `data-src` attribute is present
but empty is not used — `!img_url` sends the code to the first image's
`src` — whereas the claim says the lazy-load value always wins when the
attribute is carried. -/
theorem lazy_empty_value_not_used :
    ({ dataSrc := some "", src := some "/a.jpg" } : ImgEl).dataSrc.isSome = true
    ∧ selectRawImg [{ dataSrc := some "", src := some "/a.jpg" }] = "/a.jpg"
    ∧ selectRawImg [{ dataSrc := some "", src := some "/a.jpg" }] ≠ "" := by
  refine ⟨rfl, rfl, by decide⟩

/-- C6 (amended): the first image carrying a lazy-load (`data-src`)
attribute is preferred and its value used when that value is non-empty;
when no image carries the attribute — or the carried value is empty —
the `src` of the first image on the page is used; the chosen value is
normalized by prefixing "https:" when protocol-relative and the site
origin when root-relative; and with both attributes present (lazy value
non-empty) the lazy value wins. -/
theorem cover_selection_precedence :
    ∀ imgs : List ImgEl,
      (∀ im v, imgs.find? (fun j => j.dataSrc.isSome) = some im → im.dataSrc = some v →
          v ≠ "" → selectRawImg imgs = v)
    ∧ (imgs.find? (fun j => j.dataSrc.isSome) = none →
        selectRawImg imgs = (match imgs.head? with | some im => im.src.getD "" | none => ""))
    ∧ (∀ im, imgs.find? (fun j => j.dataSrc.isSome) = some im → im.dataSrc = some "" →
        selectRawImg imgs = (match imgs.head? with | some im => im.src.getD "" | none => ""))
    ∧ (∀ u, jsStartsWith u "//" = true → normalizeImg u = "https:" ++ u)
    ∧ (∀ u, jsStartsWith u "//" = false → jsStartsWith u "/" = true →
        normalizeImg u = "https://www.tadu.com" ++ u)
    ∧ (∀ u, jsStartsWith u "//" = false → jsStartsWith u "/" = false → normalizeImg u = u)
    ∧ normalizeImg (selectRawImg
        [{ dataSrc := some "//img.tadu.com/c.jpg", src := some "/d.jpg" }])
        = "https://img.tadu.com/c.jpg" := by
  intro imgs
  refine ⟨?_, ?_, ?_, ?_, ?_, ?_, by decide⟩
  · intro im v hf hv hne
    simp only [selectRawImg, hf, hv, Option.getD_some]
    rw [if_neg hne]
  · intro hf
    simp only [selectRawImg, hf]
    simp
  · intro im hf hv
    simp only [selectRawImg, hf, hv, Option.getD_some]
    simp
  · intro u h
    rw [normalizeImg, if_pos h]
  · intro u h1 h2
    rw [normalizeImg, if_neg (by simp [h1]), if_pos h2]
  · intro u h1 h2
    rw [normalizeImg, if_neg (by simp [h1]), if_neg (by simp [h2])]

/-- C6 witness: the precedence and normalization rules at concrete
inputs. -/
theorem cover_selection_precedence_witness :
    selectRawImg [{ dataSrc := some "//img.tadu.com/c.jpg", src := some "/d.jpg" }]
        = "//img.tadu.com/c.jpg"
    ∧ selectRawImg [{ dataSrc := none, src := some "/d.jpg" }] = "/d.jpg"
    ∧ normalizeImg "/d.jpg" = "https://www.tadu.com/d.jpg"
    ∧ normalizeImg "//img.x/c.jpg" = "https://img.x/c.jpg" := by
  refine ⟨?_, ?_, ?_, ?_⟩
  · exact (cover_selection_precedence
      [{ dataSrc := some "//img.tadu.com/c.jpg", src := some "/d.jpg" }]).1 _ _ rfl rfl (by decide)
  · exact (cover_selection_precedence [{ dataSrc := none, src := some "/d.jpg" }]).2.1 rfl
  · exact (cover_selection_precedence []).2.2.2.2.1 "/d.jpg" (by decide) (by decide)
  · exact (cover_selection_precedence []).2.2.2.1 "//img.x/c.jpg" (by decide)

/-! ## Claim C4 -/

/-- C4: for every chapter count N and book id, the chapter pipeline
returns exactly N records whose `index` fields are 1..N in ascending
launch order, and the `Promise.all` assembly yields this launch-order
list whatever permutation of the tasks' completion order occurs. -/
theorem chapter_pipeline_ordered :
    ∀ (w : World) (bookId : String) (n : Nat),
      (crawlFirstNChapters w bookId n).length = n
    ∧ (crawlFirstNChapters w bookId n).map (fun c => c.index)
        = (List.range n).map (fun i => i + 1)
    ∧ (∀ order : List Nat, order.Perm (List.range n) →
        collectByIndex n (completeInOrder (crawlFirstNChapters w bookId n) order)
          = (crawlFirstNChapters w bookId n).map some) := by
  intro w bookId n
  have hlen : (crawlFirstNChapters w bookId n).length = n := by
    simp [crawlFirstNChapters]
  refine ⟨hlen, ?_, ?_⟩
  · simp [crawlFirstNChapters, List.map_map, Function.comp, chapterTask_index]
  · intro order hperm
    exact collectByIndex_perm _ n order hlen hperm

/-- C4 witness: a two-chapter pipeline reassembled from the reversed
completion order. -/
theorem chapter_pipeline_ordered_witness :
    collectByIndex 2 (completeInOrder (crawlFirstNChapters failWorld "5" 2) [1, 0])
      = (crawlFirstNChapters failWorld "5" 2).map some :=
  (chapter_pipeline_ordered failWorld "5" 2).2.2 [1, 0] (by decide)

/-! ## Claim C7 -/

/-- C7: the listing extractor returns the pattern-matched identifiers
deduplicated and sorted lexicographically as strings (so "50" sorts
before "6"), and a document with zero matches yields the empty list. -/
theorem listing_ids_sorted_dedup :
    ∀ hrefs : List String,
      List.Sorted (fun a b => a ≤ b) (getBookIds hrefs)
    ∧ (getBookIds hrefs).Nodup
    ∧ (∀ x, x ∈ getBookIds hrefs ↔ ∃ h ∈ hrefs, extractBookId h = some x)
    ∧ ((∀ h ∈ hrefs, extractBookId h = none) → getBookIds hrefs = [])
    ∧ getBookIds ["/book/6/", "/book/50/"] = ["50", "6"] := by
  intro hrefs
  have hperm : List.Perm
      (List.insertionSort (fun a b => strLeb a b = true) (dedupFirst (hrefs.filterMap extractBookId)))
      (dedupFirst (hrefs.filterMap extractBookId)) := List.perm_insertionSort _ _
  haveI : IsTotal String (fun a b => strLeb a b = true) :=
    ⟨fun a b => by rw [strLeb_iff_le, strLeb_iff_le]; exact le_total a b⟩
  haveI : IsTrans String (fun a b => strLeb a b = true) :=
    ⟨fun a b c hab hbc => by
      rw [strLeb_iff_le] at hab hbc ⊢
      exact le_trans hab hbc⟩
  refine ⟨?_, ?_, ?_, ?_, by decide⟩
  · have hsorted : List.Sorted (fun a b => strLeb a b = true) (getBookIds hrefs) :=
      List.sorted_insertionSort _ _
    exact hsorted.imp (fun h => (strLeb_iff_le _ _).mp h)
  · rw [getBookIds]
    exact hperm.nodup_iff.mpr (nodup_dedupFirst _)
  · intro x
    rw [getBookIds]
    rw [hperm.mem_iff, mem_dedupFirst, List.mem_filterMap]
  · intro hall
    rw [getBookIds, List.filterMap_eq_nil_iff.mpr hall]
    rfl

/-- C7 witness: membership and the zero-match case at concrete
documents. -/
theorem listing_ids_sorted_dedup_witness :
    ("50" ∈ getBookIds ["/book/6/", "/book/50/"]
      ↔ ∃ h ∈ ["/book/6/", "/book/50/"], extractBookId h = some "50")
    ∧ getBookIds ["no book link"] = [] :=
  ⟨(listing_ids_sorted_dedup ["/book/6/", "/book/50/"]).2.2.1 "50",
   (listing_ids_sorted_dedup ["no book link"]).2.2.2.1 (by decide)⟩

/-! ## Claim C9 -/

/-- C9: a content response with a non-success status is treated as a
failure and retried under the same policy (exhausting into "" after the
3 outer rounds); a successful response yields the `content` field
stripped of markup with all carriage returns removed; and any mix of
failures exhausts into the empty string rather than an error. -/
theorem chapter_content_policy :
    ∀ net : ContentNet,
      ((∀ j, ∃ p, net j = some (some p) ∧ p.status ≠ 200) →
        crawlChapterContent net = "" ∧ crawlChapterContentRequests net = 3)
    ∧ (∀ p : ContentPayload, net 0 = some (some p) → p.status = 200 →
        crawlChapterContent net = removeCR (stripTags (p.content.getD ""))
        ∧ ∀ c ∈ (crawlChapterContent net).data, c ≠ '\r')
    ∧ ((∀ j, net j = none ∨ net j = some none ∨ ∃ p, net j = some (some p) ∧ p.status ≠ 200) →
        crawlChapterContent net = "") := by
  intro net
  refine ⟨?_, ?_, ?_⟩
  · intro h
    constructor
    · rw [crawlChapterContent, crawlChapterContentGo_badStatus h]
    · rw [crawlChapterContentRequests, crawlChapterContentGo_badStatus h]
      simp [RETRY_TIMES]
  · intro p h hs
    have he := crawlChapterContent_success h hs
    refine ⟨he, ?_⟩
    rw [he]
    exact removeCR_no_cr _
  · intro h
    rw [crawlChapterContent]
    exact crawlChapterContentGo_absorb h RETRY_TIMES 0

/-- C9 witness: the three outcomes at concrete response sequences. -/
theorem chapter_content_policy_witness :
    (crawlChapterContent (fun _ => some (some { status := 450, content := some "x" })) = ""
      ∧ crawlChapterContentRequests (fun _ => some (some { status := 450, content := some "x" }))
          = 3)
    ∧ crawlChapterContent (fun _ => some (some { status := 200, content := some "<p>A\rB</p>" }))
        = removeCR (stripTags "<p>A\rB</p>")
    ∧ crawlChapterContent (fun _ => some none) = "" := by
  refine ⟨(chapter_content_policy _).1 ?_, ?_, (chapter_content_policy _).2.2 ?_⟩
  · intro j
    exact ⟨_, rfl, by decide⟩
  · exact ((chapter_content_policy _).2.1
      { status := 200, content := some "<p>A\rB</p>" } rfl rfl).1
  · intro j
    exact Or.inr (Or.inl rfl)

/-! ## Claim C2 -/

/-- C2: failure handling is asymmetric — listing-fetch exhaustion and
any book's metadata-fetch exhaustion surface as a 500 response, while
the request succeeds regardless of chapter-level network behavior, a
chapter title whose page never loads resolving to the synthesized
default and a chapter content whose endpoint never answers resolving to
the empty string. -/
theorem crawl_error_asymmetry :
    ∀ (w : World) (pq cq : Option String),
      ((∀ k, w.storePages (listingUrl (parseIntJS (jsOrDefault pq "1"))) k = none) →
        ∃ m, crawlHandler w pq cq = .serverError m)
    ∧ (∀ (hrefs : List String) (b : String),
        safeGet (w.storePages (listingUrl (parseIntJS (jsOrDefault pq "1"))))
            (listingUrl (parseIntJS (jsOrDefault pq "1"))) RETRY_TIMES = .ok hrefs →
        b ∈ getBookIds hrefs →
        (∀ k, w.bookPages (bookUrl b) k = none) →
        ∃ m, crawlHandler w pq cq = .serverError m)
    ∧ (∀ hrefs : List String,
        safeGet (w.storePages (listingUrl (parseIntJS (jsOrDefault pq "1"))))
            (listingUrl (parseIntJS (jsOrDefault pq "1"))) RETRY_TIMES = .ok hrefs →
        getBookIds hrefs ≠ [] →
        (∀ b ∈ getBookIds hrefs,
          ∃ d, safeGet (w.bookPages (bookUrl b)) (bookUrl b) RETRY_TIMES = .ok d) →
        ∃ rs, crawlHandler w pq cq = .ok rs
          ∧ ∀ r ∈ rs, ∀ c ∈ r.chapters,
              ((∀ k, w.chapterPages (chapterUrl r.id c.index) k = none) →
                c.title = defaultTitle c.index)
              ∧ ((∀ k, w.contentApi (contentUrl r.id c.index) k = none) →
                c.content = "")) := by
  intro w pq cq
  refine ⟨?_, ?_, ?_⟩
  · intro h
    exact ⟨_, crawlHandler_listing_error (safeGet_allNone h _ _)⟩
  · intro hrefs b hok hb hfail
    have hne : getBookIds hrefs ≠ [] := by
      intro h0
      rw [h0] at hb
      cases hb
    obtain ⟨e', he'⟩ := @mapE_error_of_mem String String BookRecord
      (fun b => crawlBook w b (parseIntJS (jsOrDefault cq "5"))) (getBookIds hrefs) b _ hb
      (crawlBook_error_of (parseIntJS (jsOrDefault cq "5")) hfail)
    exact ⟨e', crawlHandler_books_error hok hne he'⟩
  · intro hrefs hok hne hmeta
    have hall : ∀ b ∈ getBookIds hrefs,
        ∃ r, crawlBook w b (parseIntJS (jsOrDefault cq "5")) = .ok r ∧ r.id = b := by
      intro b hb
      obtain ⟨d, hd⟩ := hmeta b hb
      obtain ⟨r, hr, hid, -⟩ := crawlBook_ok_of (parseIntJS (jsOrDefault cq "5")) hd
      exact ⟨r, hr, hid⟩
    obtain ⟨rs, hrs, hlen, hmap⟩ := @mapE_ok_map String String BookRecord
      (fun b => crawlBook w b (parseIntJS (jsOrDefault cq "5"))) (fun r => r.id)
      (getBookIds hrefs) hall
    refine ⟨rs, crawlHandler_books_ok hok hne hrs, ?_⟩
    intro r hr c hc
    obtain ⟨b, hb, hfb⟩ := mapE_mem_ok hrs r hr
    obtain ⟨hid, hch⟩ := crawlBook_ok_inv hfb
    rw [hch] at hc
    obtain ⟨hceq, -, -⟩ := mem_crawlFirstNChapters hc
    constructor
    · intro hfailT
      rw [hid] at hfailT
      calc c.title = (chapterTask w b c.index).title := by conv_lhs => rw [hceq]
        _ = crawlChapterTitle (w.chapterPages (chapterUrl b c.index)) c.index := rfl
        _ = defaultTitle c.index := crawlChapterTitle_allNone hfailT c.index
    · intro hfailC
      rw [hid] at hfailC
      calc c.content = (chapterTask w b c.index).content := by conv_lhs => rw [hceq]
        _ = crawlChapterContent (w.contentApi (contentUrl b c.index)) := rfl
        _ = "" := crawlChapterContent_allNone hfailC

/-- C2 witness: the three outcomes at concrete worlds — listing failure
gives 500, metadata failure gives 500, and a world whose chapter-level
requests all fail still answers 200 with absorbed defaults. -/
theorem crawl_error_asymmetry_witness :
    (∃ m, crawlHandler failWorld none none = .serverError m)
    ∧ (∃ m, crawlHandler metaFailWorld none none = .serverError m)
    ∧ (∃ rs, crawlHandler oneBookWorld none none = .ok rs
        ∧ ∀ r ∈ rs, ∀ c ∈ r.chapters,
            ((∀ k, oneBookWorld.chapterPages (chapterUrl r.id c.index) k = none) →
              c.title = defaultTitle c.index)
            ∧ ((∀ k, oneBookWorld.contentApi (contentUrl r.id c.index) k = none) →
              c.content = "")) := by
  refine ⟨?_, ?_, ?_⟩
  · exact (crawl_error_asymmetry failWorld none none).1 (fun k => rfl)
  · exact (crawl_error_asymmetry metaFailWorld none none).2.1 ["/book/5/"] "5" rfl
      (by decide) (fun k => rfl)
  · exact (crawl_error_asymmetry oneBookWorld none none).2.2 ["/book/5/"] rfl
      (by decide) (fun b hb => ⟨emptyBookDoc, rfl⟩)

/-! ## Claim C5 -/

/-- C5: the discovered identifier list is duplicate-free; when it is
empty the request resolves to the 404 "not found" response without
crawling any book; and when it is non-empty (and metadata loads) the
result array has exactly one record per identifier, in the identifier
order fixed at fan-out launch. -/
theorem orchestrator_result_shape :
    ∀ (w : World) (pq cq : Option String) (hrefs : List String),
      safeGet (w.storePages (listingUrl (parseIntJS (jsOrDefault pq "1"))))
          (listingUrl (parseIntJS (jsOrDefault pq "1"))) RETRY_TIMES = .ok hrefs →
      (getBookIds hrefs).Nodup
    ∧ (getBookIds hrefs = [] → crawlHandler w pq cq = .notFound "Không tìm thấy book nào")
    ∧ (getBookIds hrefs ≠ [] →
        (∀ b ∈ getBookIds hrefs,
          ∃ d, safeGet (w.bookPages (bookUrl b)) (bookUrl b) RETRY_TIMES = .ok d) →
        ∃ rs, crawlHandler w pq cq = .ok rs
          ∧ rs.length = (getBookIds hrefs).length
          ∧ rs.map (fun r => r.id) = getBookIds hrefs) := by
  intro w pq cq hrefs hok
  refine ⟨?_, ?_, ?_⟩
  · rw [getBookIds]
    exact (List.perm_insertionSort _ _).nodup_iff.mpr (nodup_dedupFirst _)
  · intro he
    exact crawlHandler_notFound hok he
  · intro hne hmeta
    have hall : ∀ b ∈ getBookIds hrefs,
        ∃ r, crawlBook w b (parseIntJS (jsOrDefault cq "5")) = .ok r ∧ r.id = b := by
      intro b hb
      obtain ⟨d, hd⟩ := hmeta b hb
      obtain ⟨r, hr, hid, -⟩ := crawlBook_ok_of (parseIntJS (jsOrDefault cq "5")) hd
      exact ⟨r, hr, hid⟩
    obtain ⟨rs, hrs, hlen, hmap⟩ := @mapE_ok_map String String BookRecord
      (fun b => crawlBook w b (parseIntJS (jsOrDefault cq "5"))) (fun r => r.id)
      (getBookIds hrefs) hall
    exact ⟨rs, crawlHandler_books_ok hok hne hrs, hlen, hmap⟩

/-- C5 witness: a zero-match listing answers 404, and a one-book listing
yields exactly one record carrying that book's id. -/
theorem orchestrator_result_shape_witness :
    crawlHandler { failWorld with storePages := fun _ _ => some ["no book link"] } none none
        = .notFound "Không tìm thấy book nào"
    ∧ (∃ rs, crawlHandler oneBookWorld none none = .ok rs
        ∧ rs.length = (getBookIds ["/book/5/"]).length
        ∧ rs.map (fun r => r.id) = getBookIds ["/book/5/"]) := by
  constructor
  · exact (orchestrator_result_shape
      { failWorld with storePages := fun _ _ => some ["no book link"] }
      none none ["no book link"] rfl).2.1 (by decide)
  · exact (orchestrator_result_shape oneBookWorld none none ["/book/5/"] rfl).2.2
      (by decide) (fun b hb => ⟨emptyBookDoc, rfl⟩)

/-! ## Claim C10 -/

/-- C10: when `num_chapters` does not parse (`parseInt` yields `NaN`) or
parses to a non-positive value, every book's chapter list is empty and
the request still succeeds with a 200 response. -/
theorem invalid_num_chapters_yields_empty :
    ∀ (w : World) (pq cq : Option String) (hrefs : List String),
      safeGet (w.storePages (listingUrl (parseIntJS (jsOrDefault pq "1"))))
          (listingUrl (parseIntJS (jsOrDefault pq "1"))) RETRY_TIMES = .ok hrefs →
      getBookIds hrefs ≠ [] →
      (∀ b ∈ getBookIds hrefs,
        ∃ d, safeGet (w.bookPages (bookUrl b)) (bookUrl b) RETRY_TIMES = .ok d) →
      (parseIntJS (jsOrDefault cq "5") = none
        ∨ ∃ z, parseIntJS (jsOrDefault cq "5") = some z ∧ z ≤ 0) →
      ∃ rs, crawlHandler w pq cq = .ok rs ∧ rs ≠ [] ∧ ∀ r ∈ rs, r.chapters = [] := by
  intro w pq cq hrefs hok hne hmeta hnc
  have hzero : toLength (parseIntJS (jsOrDefault cq "5")) = 0 := by
    rcases hnc with h | ⟨z, hz, hle⟩
    · rw [h]
      rfl
    · rw [hz]
      exact Int.toNat_of_nonpos hle
  have hall : ∀ b ∈ getBookIds hrefs,
      ∃ r, crawlBook w b (parseIntJS (jsOrDefault cq "5")) = .ok r ∧ r.id = b := by
    intro b hb
    obtain ⟨d, hd⟩ := hmeta b hb
    obtain ⟨r, hr, hid, -⟩ := crawlBook_ok_of (parseIntJS (jsOrDefault cq "5")) hd
    exact ⟨r, hr, hid⟩
  obtain ⟨rs, hrs, hlen, hmap⟩ := @mapE_ok_map String String BookRecord
    (fun b => crawlBook w b (parseIntJS (jsOrDefault cq "5"))) (fun r => r.id)
    (getBookIds hrefs) hall
  refine ⟨rs, crawlHandler_books_ok hok hne hrs, ?_, ?_⟩
  · intro h0
    rw [h0] at hlen
    exact hne (List.length_eq_zero.mp hlen.symm)
  · intro r hr
    obtain ⟨b, hb, hfb⟩ := mapE_mem_ok hrs r hr
    have hch := (crawlBook_ok_inv hfb).2
    rw [hzero] at hch
    exact hch

/-- C10 witness: `num_chapters=-3` still answers 200 with empty chapter
lists. -/
theorem invalid_num_chapters_yields_empty_witness :
    ∃ rs, crawlHandler oneBookWorld none (some "-3") = .ok rs
      ∧ rs ≠ [] ∧ ∀ r ∈ rs, r.chapters = [] :=
  invalid_num_chapters_yields_empty oneBookWorld none (some "-3") ["/book/5/"] rfl
    (by decide) (fun b hb => ⟨emptyBookDoc, rfl⟩) (Or.inr ⟨-3, by decide, by decide⟩)
